import Mathlib

/-
Verification development for the bucketball betting backend.

The Go source is shallowly embedded: float64 quantities become ℚ (all the
constants involved — 0.20, 0.25, 0.50, 0.75, basket multipliers, bet bounds —
are modelled as the exact rationals the literals denote), Mongo documents
become Lean structures, and the implicit random sources (time.Now().UnixNano()
in CalculateWinningBasket, rand.Intn / rand.Float64 in PlayGame) become
explicit parameters collected in an Env structure.  Mongo ObjectIDs are
modelled as naturals drawn from a `nextId` counter; a freshly generated
ObjectID is modelled as the current counter value, which is distinct from
every already-stored id whenever the stored ids are below the counter.
Go map iteration order is nondeterministic; the embedding determinises it to
first-occurrence order of the keys (no claim below depends on the order).
Timestamps are dropped; the only time-dependent branch (the 30-minute
staleness check in PlayGame) is modelled by the boolean `elapsedOver30`.
-/

namespace Bucketball

/-! ### Static catalog (models/game.go: Ball, Basket, GetAvailableBalls,
GetAvailableBaskets) -/

structure Ball where
  id : ℤ
  color : String
  name : String
  deriving DecidableEq

structure Basket where
  value : ℚ
  color : String
  deriving DecidableEq

def getAvailableBalls : List Ball :=
  [ { id := 0, color := "#FF6B6B", name := "Red" },
    { id := 1, color := "#4ECDC4", name := "Cyan" },
    { id := 2, color := "#FFE66D", name := "Yellow" },
    { id := 3, color := "#95E1D3", name := "Green" } ]

def getAvailableBaskets : List Basket :=
  [ { value := 1/4, color := "#e74c3c" },
    { value := 1/2, color := "#e67e22" },
    { value := 3/4, color := "#f39c12" },
    { value := 1, color := "#f1c40f" },
    { value := 2, color := "#2ecc71" },
    { value := 4, color := "#3498db" },
    { value := 8, color := "#9b59b6" },
    { value := 10, color := "#1abc9c" } ]

/-- The multiplier of the basket at a given index.  Go indexes the slice
directly (out-of-range would panic and never happens, see the selector
totality theorem); the default is only a total-function artefact. -/
def basketValueAt (idx : ℕ) : ℚ :=
  (getAvailableBaskets.getD idx { value := 0, color := "" }).value

/-! ### Outcome selector (models/game.go: CalculateWinningBasket) -/

def totalPlayerBetsOf (playerBets : List (ℤ × ℚ)) : ℚ :=
  (playerBets.map Prod.snd).sum

def maxAllowedWinOf (currentWallet : ℚ) : ℚ :=
  currentWallet * (20/100)

/-- `maxMultiplier` of CalculateWinningBasket: initialised to 0.0 and only
assigned when the aggregate wager is positive. -/
def maxMultiplierOf (playerBets : List (ℤ × ℚ)) (currentWallet : ℚ) : ℚ :=
  if 0 < totalPlayerBetsOf playerBets then
    maxAllowedWinOf currentWallet / totalPlayerBetsOf playerBets
  else 0

def defaultWeights : List ℕ := [35, 25, 15, 5, 8, 6, 4, 2]

/-- The three weight-zeroing steps of CalculateWinningBasket (indices 7, 6,
then 5 and 4), exactly as the source orders them. -/
def adjustForWallet (maxMultiplier : ℚ) : List ℕ :=
  let w0 := defaultWeights
  let w1 := if maxMultiplier < 8 then w0.set 7 0 else w0
  let w2 := if maxMultiplier < 4 then w1.set 6 0 else w1
  let w3 := if maxMultiplier < 2 then (w2.set 5 0).set 4 0 else w2
  w3

def walletAdjustedWeights (playerBets : List (ℤ × ℚ)) (currentWallet : ℚ) : List ℕ :=
  adjustForWallet (maxMultiplierOf playerBets currentWallet)

/-- `availableBaskets` counter of CalculateWinningBasket: how many weights are
positive. -/
def countPositive (ws : List ℕ) : ℕ :=
  (ws.filter (fun w => decide (0 < w))).length

/-- The redistribution loop of CalculateWinningBasket: positive weights are
replaced by 40/30/20/10 and then 10, zero weights stay zero. -/
def redistributeLoop : List ℕ → ℕ → List ℕ
  | [], _ => []
  | w :: ws, k =>
    if 0 < w then ([40, 30, 20, 10].getD k 10) :: redistributeLoop ws (k + 1)
    else 0 :: redistributeLoop ws k

/-- The weighted draw loop: subtract each weight from `random` and return the
first index where the remainder drops to ≤ 0. -/
def selectLoop : ℚ → List ℕ → ℕ → Option ℕ
  | _, [], _ => none
  | r, w :: ws, i => if r - w ≤ 0 then some i else selectLoop (r - w) ws (i + 1)

def pickIndex (r : ℚ) (ws : List ℕ) : ℕ :=
  match selectLoop r ws 0 with
  | some i => i
  | none => 0

/-- models.CalculateWinningBasket.  `nanos` stands for the
time.Now().UnixNano() value read inside the function; the Go code draws
`random := float64(nanos % int64(totalWeight))`. -/
def calculateWinningBasket (nanos : ℕ) (playerBets : List (ℤ × ℚ))
    (currentWallet : ℚ) : ℕ :=
  let weights0 := walletAdjustedWeights playerBets currentWallet
  let weights := if countPositive weights0 < 4 then redistributeLoop weights0 0 else weights0
  let totalWeight := weights.sum
  if totalWeight = 0 then 0
  else pickIndex ((nanos % totalWeight : ℕ) : ℚ) weights

/-! ### Data model (models/game.go, models/user.go) -/

/-- models.Bet (timestamps dropped, ObjectIDs as naturals). -/
structure Bet where
  id : ℕ
  userId : ℕ
  gameId : ℕ
  ballId : ℤ
  amount : ℚ
  status : String
  deriving DecidableEq

def Bet.calculateWinAmount (b : Bet) (multiplier : ℚ) : ℚ :=
  b.amount * multiplier

def Bet.calculateProfit (b : Bet) (multiplier : ℚ) : ℚ :=
  b.calculateWinAmount multiplier - b.amount

/-- IsWin: multiplier >= 2. -/
def Bet.isWin (_ : Bet) (multiplier : ℚ) : Bool :=
  decide (2 ≤ multiplier)

/-- IsPush: multiplier == 1. -/
def Bet.isPush (_ : Bet) (multiplier : ℚ) : Bool :=
  decide (multiplier = 1)

/-- IsLoss: multiplier < 1. -/
def Bet.isLoss (_ : Bet) (multiplier : ℚ) : Bool :=
  decide (multiplier < 1)

/-- models.Game (timestamps dropped). -/
structure Game where
  id : ℕ
  roundNumber : ℕ
  status : String
  winningBallId : Option ℤ
  winningBasketId : Option ℕ
  totalBets : ℚ
  houseWallet : ℚ
  adminProfit : ℚ
  deriving DecidableEq

/-- models.GameResult (ObjectID and timestamp dropped). -/
structure GameResult where
  userId : ℕ
  gameId : ℕ
  ballId : ℤ
  ballName : String
  ballColor : String
  betAmount : ℚ
  multiplier : ℚ
  winAmount : ℚ
  profit : ℚ
  basketLanded : ℕ
  won : Bool
  pushed : Bool
  walletLimited : Bool
  deriving DecidableEq

/-- models.HouseWallet (timestamp dropped). -/
structure HouseWallet where
  balance : ℚ
  adminProfit : ℚ
  totalBets : ℚ
  deriving DecidableEq

/-- User balances, keyed by user id (only the balance field of models.User is
relevant to the engine). -/
abbrev UserBalances := List (ℕ × ℚ)

def lookupBalance (users : UserBalances) (userId : ℕ) : Option ℚ :=
  (users.find? (fun p => decide (p.1 = userId))).map Prod.snd

/-- User.AddToBalance applied through GetByID/Update: the stored balance of
`userId` is increased by `delta` (which the source does not require to be
non-negative). -/
def creditUser (users : UserBalances) (userId : ℕ) (delta : ℚ) : UserBalances :=
  users.map (fun p => if p.1 = userId then (p.1, p.2 + delta) else p)

/-- User.SubtractFromBalance applied through Update (the insufficient-balance
guard was already checked by the caller). -/
def debitUser (users : UserBalances) (userId : ℕ) (delta : ℚ) : UserBalances :=
  users.map (fun p => if p.1 = userId then (p.1, p.2 - delta) else p)

/-! ### PlaceBet (services/game_service.go: PlaceBet) -/

/-- The persistent state PlaceBet touches: the current active game (if any),
user balances, the bet store, the house-wallet document (read when a game is
created), and the ObjectID counter. -/
structure BetSysState where
  currentGame : Option Game
  users : UserBalances
  bets : List Bet
  walletStore : HouseWallet
  nextId : ℕ
  deriving DecidableEq

def isValidBallId (ballId : ℤ) : Bool :=
  (getAvailableBalls.map Ball.id).contains ballId

/-- The validation loop of PlaceBet over the ball_bets entries: per-entry ball
id / positivity / per-ball-cap checks, accumulating the total bet amount.
(Go iterates a map in arbitrary order; the embedding uses list order — the
claims below never depend on which offending entry is reported first.) -/
def validateEntries : List (ℤ × ℚ) → Except String ℚ
  | [] => .ok 0
  | (ballId, amount) :: rest =>
    if isValidBallId ballId then
      if amount ≤ 0 then .error "invalid bet amount"
      else if 1000 < amount then .error "maximum bet amount per ball is 1000"
      else
        match validateEntries rest with
        | .error e => .error e
        | .ok t => .ok (amount + t)
    else .error "invalid ball ID"

/-- The bet-creation loop of PlaceBet: one pending Bet per entry, each with a
fresh ObjectID. -/
def createBets (userId : ℕ) (gameId : ℕ) : List (ℤ × ℚ) → ℕ → List Bet × ℕ
  | [], nextId => ([], nextId)
  | (ballId, amount) :: rest, nextId =>
    let bet : Bet :=
      { id := nextId, userId := userId, gameId := gameId, ballId := ballId,
        amount := amount, status := "pending" }
    let (bs, nextId') := createBets userId gameId rest (nextId + 1)
    (bet :: bs, nextId')

/-- GameService.PlaceBet.  Returns the Go return value (the current game or
an error) together with the state after the call. -/
def placeBet (st : BetSysState) (userId : ℕ) (ballBets : List (ℤ × ℚ)) :
    Except String Game × BetSysState :=
  if ballBets = [] then (.error "no balls selected for betting", st)
  else
    match validateEntries ballBets with
    | .error e => (.error e, st)
    | .ok totalBetAmount =>
      if 5000 < totalBetAmount then (.error "maximum total bet amount is 5000", st)
      else if totalBetAmount < 10 then (.error "minimum total bet amount is 10", st)
      else
        match lookupBalance st.users userId with
        | none => (.error "user not found", st)
        | some balance =>
          if balance < totalBetAmount then (.error "insufficient balance", st)
          else
            let (currentGame, st1) :=
              match st.currentGame with
              | some g => (g, st)
              | none =>
                let g : Game :=
                  { id := st.nextId, roundNumber := 1, status := "active",
                    winningBallId := none, winningBasketId := none,
                    totalBets := st.walletStore.totalBets,
                    houseWallet := st.walletStore.balance,
                    adminProfit := st.walletStore.adminProfit }
                (g, { st with currentGame := some g, nextId := st.nextId + 1 })
            if currentGame.houseWallet ≤ 0 then (.error "house wallet is empty", st1)
            else
              let (newBets, nextId') := createBets userId currentGame.id ballBets st1.nextId
              let users' := debitUser st1.users userId totalBetAmount
              let storedGame := { currentGame with totalBets := currentGame.totalBets + totalBetAmount }
              (.ok currentGame,
               { st1 with bets := st1.bets ++ newBets, users := users',
                          currentGame := some storedGame, nextId := nextId' })

/-! ### PlayGame (services/game_service.go: PlayGame) -/

/-- The random draws and environment outcomes PlayGame consumes:
`basketNanos b` is the time.Now().UnixNano() read inside the
CalculateWinningBasket call for ball `b`; `ballPickNanos` drives the
rand.Intn winning-ball draw; `adminRand` is the rand.Float64() draw for the
admin skim rate (in [0,1)); `resultFail` says whether the CreateGameResult
persistence calls fail (their error is logged and ignored by the source);
`elapsedOver30` is the time.Since(game.CreatedAt) > 30min test. -/
structure Env where
  basketNanos : ℤ → ℕ
  ballPickNanos : ℕ
  adminRand : ℚ
  resultFail : Bool
  elapsedOver30 : Bool

/-- The persistent state PlayGame touches. -/
structure SysState where
  game : Game
  bets : List Bet
  users : UserBalances
  results : List GameResult
  wallet : HouseWallet
  nextId : ℕ
  deriving DecidableEq

/-- Distinct ball ids of the bet list, in first-occurrence order (the Go code
groups via a map whose iteration order is arbitrary; no claim depends on the
order). -/
def ballIdsOf : List Bet → List ℤ
  | [] => []
  | b :: bs => b.ballId :: (ballIdsOf bs).filter (fun x => decide (x ≠ b.ballId))

/-- The bets of the round placed on one ball, in placement order (the Go
grouping appends, preserving order within a ball). -/
def betsOn (bets : List Bet) (ballId : ℤ) : List Bet :=
  bets.filter (fun b => decide (b.ballId = ballId))

/-- `totalPlayerBets` for one ball. -/
def wagerOn (bets : List Bet) (ballId : ℤ) : ℚ :=
  ((betsOn bets ballId).map Bet.amount).sum

/-- `ballTargets[ballID]`: the basket drawn for each ball.  The source calls
CalculateWinningBasket with the singleton map `{ballID: totalPlayerBets}` and
the round-start house-wallet snapshot. -/
def targetsOf (env : Env) (st : SysState) : ℤ → ℕ :=
  fun ballId =>
    calculateWinningBasket (env.basketNanos ballId)
      [(ballId, wagerOn st.bets ballId)] st.game.houseWallet

/-- One first-pass GameResult for one bet, scored against the basket its own
ball landed in.  The source reads the ball's display data by indexing
GetAvailableBalls() with the ball id. -/
def nominalResult (gameId : ℕ) (ballId : ℤ) (basketIndex : ℕ) (b : Bet) : GameResult :=
  let multiplier := basketValueAt basketIndex
  let ball := getAvailableBalls.getD ballId.toNat { id := 0, color := "", name := "" }
  { userId := b.userId, gameId := gameId, ballId := ballId,
    ballName := ball.name, ballColor := ball.color,
    betAmount := b.amount, multiplier := multiplier,
    winAmount := b.calculateWinAmount multiplier,
    profit := b.calculateProfit multiplier,
    basketLanded := basketIndex,
    won := b.isWin multiplier, pushed := b.isPush multiplier,
    walletLimited := false }

/-- The first settlement pass (`tempResults`): every bet of every ball gets a
nominal result against its own ball's target basket. -/
def nominalResults (gameId : ℕ) (bets : List Bet) (targets : ℤ → ℕ) : List GameResult :=
  (ballIdsOf bets).flatMap
    (fun ballId => (betsOn bets ballId).map (nominalResult gameId ballId (targets ballId)))

/-- `totalWins`: the sum of profits over results with IsWin && profit > 0,
accumulated during the first pass. -/
def totalNominalWins (rs : List GameResult) : ℚ :=
  ((rs.filter (fun r => r.won && decide (0 < r.profit))).map GameResult.profit).sum

def tempOf (env : Env) (st : SysState) : List GameResult :=
  nominalResults st.game.id st.bets (targetsOf env st)

/-- `walletLimitFactor`: 1.0, or maxAllowedWin / totalWins when the nominal
total exceeds the cap. -/
def factorOf (env : Env) (st : SysState) : ℚ :=
  let totalWins := totalNominalWins (tempOf env st)
  let maxAllowedWin := st.game.houseWallet * (20/100)
  if maxAllowedWin < totalWins then maxAllowedWin / totalWins else 1

/-- The body of the second pass that rewrites one result: scale a winner by
the wallet-limit factor (flagging walletLimited iff the factor is < 1), zero
a push, and recompute the effective multiplier as finalWinAmount/BetAmount. -/
def applyWalletLimit (factor : ℚ) (r : GameResult) : GameResult :=
  if r.won && decide (0 < r.profit) then
    let finalProfit := r.profit * factor
    let finalWinAmount := r.betAmount + finalProfit
    { r with profit := finalProfit, winAmount := finalWinAmount,
             multiplier := finalWinAmount / r.betAmount,
             walletLimited := decide (factor < 1) }
  else if r.pushed then
    { r with profit := 0, winAmount := r.betAmount,
             multiplier := r.betAmount / r.betAmount }
  else
    { r with multiplier := r.winAmount / r.betAmount }

def finalsOf (env : Env) (st : SysState) : List GameResult :=
  (tempOf env st).map (applyWalletLimit (factorOf env st))

/-- The bet status string written by the second pass. -/
def betStatusOf (r : GameResult) : String :=
  if r.won then "won" else if r.pushed then "pushed" else "lost"

/-- UpdateBet: $set the status of the bet whose _id equals `targetId`.
The source passes `primitive.NewObjectID()` as `targetId`. -/
def updateBetStatus (bets : List Bet) (targetId : ℕ) (status : String) : List Bet :=
  bets.map (fun b => if b.id = targetId then { b with status := status } else b)

/-- Accumulator of the second settlement pass.  `results` is the persisted
game_results collection; `memResults` is the in-memory `results` slice, which
the source appends to even when CreateGameResult failed (the house-wallet
update below reads the in-memory slice). -/
structure CommitAcc where
  users : UserBalances
  bets : List Bet
  results : List GameResult
  memResults : List GameResult
  nextId : ℕ
  deriving DecidableEq

/-- One iteration of the second pass: apply the wallet limit, credit the
bettor's stored balance by the final profit, write the bet status to a
freshly generated ObjectID (as the source does), persist the GameResult
unless the store fails (in which case the source logs and continues). -/
def commitOne (resultFail : Bool) (factor : ℚ) (acc : CommitAcc) (r : GameResult) : CommitAcc :=
  let final := applyWalletLimit factor r
  { users := creditUser acc.users final.userId final.profit,
    bets := updateBetStatus acc.bets acc.nextId (betStatusOf final),
    results := if resultFail then acc.results else acc.results ++ [final],
    memResults := acc.memResults ++ [final],
    nextId := acc.nextId + 1 }

def commitPass (resultFail : Bool) (factor : ℚ) (acc : CommitAcc)
    (rs : List GameResult) : CommitAcc :=
  rs.foldl (commitOne resultFail factor) acc

/-- `netHouseChange` contribution of one settled result: winners drain the
house by their profit, others add the absolute value of their (non-positive)
profit. -/
def houseDelta (r : GameResult) : ℚ :=
  if 0 < r.profit then -r.profit else |r.profit|

/-- The whole success path of PlayGame after the active/staleness/no-bets
guards: record winning ball and basket on the (now completed) round, run the
two settlement passes, and update the house wallet from the in-memory results
with the 2–4% admin skim. -/
def settleActiveGame (env : Env) (st : SysState) : SysState :=
  let ballIds := ballIdsOf st.bets
  let winningBallId := ballIds.getD (env.ballPickNanos % ballIds.length) 0
  let game1 :=
    { st.game with status := "completed",
                   winningBallId := some winningBallId,
                   winningBasketId := some (targetsOf env st winningBallId) }
  let acc := commitPass env.resultFail (factorOf env st)
    { users := st.users, bets := st.bets, results := st.results,
      memResults := [], nextId := st.nextId }
    (tempOf env st)
  let adminProfitRate := 2/100 + env.adminRand * (2/100)
  let adminProfitAmt := st.game.totalBets * adminProfitRate
  let netHouseChange := (acc.memResults.map houseDelta).sum - adminProfitAmt
  { game := game1, bets := acc.bets, users := acc.users, results := acc.results,
    wallet := { balance := st.wallet.balance + netHouseChange,
                adminProfit := st.wallet.adminProfit + adminProfitAmt,
                totalBets := st.wallet.totalBets + st.game.totalBets },
    nextId := acc.nextId }

/-- GameService.PlayGame.  Returns the Go error value together with the state
after the call. -/
def playGame (env : Env) (st : SysState) : Except String Unit × SysState :=
  if st.game.status ≠ "active" then (.error "game is not active", st)
  else if env.elapsedOver30 = true then
    (.error "game has expired due to inactivity",
     { st with game := { st.game with status := "completed" } })
  else if st.bets = [] then (.error "no bets found for this game", st)
  else (.ok (), settleActiveGame env st)

/-- The guard conjunction under which PlayGame reaches the settlement path. -/
def ValidSettle (env : Env) (st : SysState) : Prop :=
  st.game.status = "active" ∧ env.elapsedOver30 = false ∧ st.bets ≠ []

instance (env : Env) (st : SysState) : Decidable (ValidSettle env st) := by
  unfold ValidSettle
  infer_instance

/-! ### Concrete rounds used by the counterexamples and witnesses -/

/-- A one-bet active round: 100 on ball 0, house snapshot 1000, wallet 1000;
with draw 90 the ball lands in basket 5 (4×), so the nominal profit 300
exceeds the 200 cap. -/
def stC1 : SysState :=
  { game := { id := 1, roundNumber := 1, status := "active",
              winningBallId := none, winningBasketId := none,
              totalBets := 100, houseWallet := 1000, adminProfit := 0 },
    bets := [{ id := 1, userId := 1, gameId := 1, ballId := 0, amount := 100,
               status := "pending" }],
    users := [(1, 0)],
    results := [],
    wallet := { balance := 1000, adminProfit := 0, totalBets := 0 },
    nextId := 2 }

def envC1 : Env :=
  { basketNanos := fun _ => 90, ballPickNanos := 0, adminRand := 1/2,
    resultFail := false, elapsedOver30 := false }

def stC1w : SysState := stC1

def envC1w : Env := envC1

/-- A two-ball round: user 1 bets 100 on ball 0, user 2 bets 100 on ball 1;
the house snapshot 1000000 leaves all weights unzeroed, ball 0 lands basket 0
(0.25×), ball 1 lands basket 4 (2×), and the winning-ball draw picks ball 0. -/
def stC2 : SysState :=
  { game := { id := 1, roundNumber := 1, status := "active",
              winningBallId := none, winningBasketId := none,
              totalBets := 200, houseWallet := 1000000, adminProfit := 0 },
    bets := [{ id := 1, userId := 1, gameId := 1, ballId := 0, amount := 100,
               status := "pending" },
             { id := 2, userId := 2, gameId := 1, ballId := 1, amount := 100,
               status := "pending" }],
    users := [(1, 0), (2, 0)],
    results := [],
    wallet := { balance := 1000000, adminProfit := 0, totalBets := 0 },
    nextId := 3 }

def envC2 : Env :=
  { basketNanos := fun ballId => if ballId = 1 then 85 else 10,
    ballPickNanos := 0, adminRand := 0,
    resultFail := false, elapsedOver30 := false }

def stC2w : SysState := stC2

def envC2w : Env := envC2

/-- A one-bet round that loses: 100 on ball 0 landing basket 0 (0.25×), user
balance 500 before settlement. -/
def stC3 : SysState :=
  { game := { id := 1, roundNumber := 1, status := "active",
              winningBallId := none, winningBasketId := none,
              totalBets := 100, houseWallet := 1000000, adminProfit := 0 },
    bets := [{ id := 1, userId := 1, gameId := 1, ballId := 0, amount := 100,
               status := "pending" }],
    users := [(1, 500)],
    results := [],
    wallet := { balance := 1000000, adminProfit := 0, totalBets := 0 },
    nextId := 2 }

def envC3 : Env :=
  { basketNanos := fun _ => 10, ballPickNanos := 0, adminRand := 0,
    resultFail := false, elapsedOver30 := false }

def stC3w : SysState := stC3

def envC3w : Env := envC3

def stC4w : SysState := stC1

def envC4w : Env := envC1

def stC5 : SysState := stC1

def envC5 : Env := envC1

/-- The round of stC1 settled against a result store whose CreateGameResult
calls fail. -/
def stC7 : SysState := stC1

def envC7 : Env :=
  { basketNanos := fun _ => 90, ballPickNanos := 0, adminRand := 1/2,
    resultFail := true, elapsedOver30 := false }

def stC7w : SysState := stC7

def envC7w : Env := envC7

/-- A PlaceBet state with one user holding 10000 and no active round. -/
def stC9w : BetSysState :=
  { currentGame := none, users := [(1, 10000)], bets := [],
    walletStore := { balance := 1000, adminProfit := 0, totalBets := 0 },
    nextId := 1 }

/-! ### Selector lemmas -/

/-- The three zeroing steps, written as one explicit weight list. -/
theorem adjustForWallet_eq (m : ℚ) :
    adjustForWallet m =
      [35, 25, 15, 5,
       if m < 2 then 0 else 8,
       if m < 2 then 0 else 6,
       if m < 4 then 0 else 4,
       if m < 8 then 0 else 2] := by
  simp only [adjustForWallet, defaultWeights]
  split_ifs <;> rfl

theorem walletAdjustedWeights_eq (pb : List (ℤ × ℚ)) (wallet : ℚ) :
    walletAdjustedWeights pb wallet =
      [35, 25, 15, 5,
       if maxMultiplierOf pb wallet < 2 then 0 else 8,
       if maxMultiplierOf pb wallet < 2 then 0 else 6,
       if maxMultiplierOf pb wallet < 4 then 0 else 4,
       if maxMultiplierOf pb wallet < 8 then 0 else 2] :=
  adjustForWallet_eq _

theorem walletAdjustedWeights_length (pb : List (ℤ × ℚ)) (wallet : ℚ) :
    (walletAdjustedWeights pb wallet).length = 8 := by
  rw [walletAdjustedWeights_eq]
  rfl

theorem selectLoop_some_lt :
    ∀ (ws : List ℕ) (r : ℚ) (i j : ℕ), selectLoop r ws i = some j → j < i + ws.length := by
  intro ws
  induction ws with
  | nil => intro r i j h; simp [selectLoop] at h
  | cons w ws ih =>
    intro r i j h
    unfold selectLoop at h
    split at h
    · cases h
      simp only [List.length_cons]
      omega
    · have := ih (r - w) (i + 1) j h
      simp only [List.length_cons]
      omega

theorem pickIndex_lt (r : ℚ) (ws : List ℕ) (h : ws.length = 8) : pickIndex r ws < 8 := by
  rcases hsel : selectLoop r ws 0 with _ | i
  · simp [pickIndex, hsel]
  · have := selectLoop_some_lt ws r 0 i hsel
    simp only [pickIndex, hsel]
    omega

/-- C6 counterexample: the claim — every basket whose multiplier exceeds
maxSustainableMultiplier gets weight zero, and a zero aggregate wager is
unconstrained with no weight zeroed — is false: at wager 0 (house balance
1000) the selector zeroes the weights of baskets 4–7 instead of leaving the
distribution untouched. -/
theorem c6_weight_zeroing_counterexample :
    ¬ (∀ (pb : List (ℤ × ℚ)) (wallet : ℚ), 0 ≤ totalPlayerBetsOf pb → 0 ≤ wallet →
        (totalPlayerBetsOf pb = 0 → walletAdjustedWeights pb wallet = defaultWeights) ∧
        (0 < totalPlayerBetsOf pb → ∀ i, i < 8 →
          maxAllowedWinOf wallet / totalPlayerBetsOf pb < basketValueAt i →
          (walletAdjustedWeights pb wallet).getD i 0 = 0)) := by
  intro h
  have h0 : totalPlayerBetsOf [((0 : ℤ), (0 : ℚ))] = 0 := by
    simp [totalPlayerBetsOf]
  have h1 := (h [(0, 0)] 1000 (le_of_eq h0.symm) (by norm_num)).1 h0
  rw [walletAdjustedWeights_eq] at h1
  have hm : maxMultiplierOf [((0 : ℤ), (0 : ℚ))] 1000 = 0 := by
    unfold maxMultiplierOf
    rw [h0]
    norm_num
  rw [hm] at h1
  norm_num [defaultWeights] at h1

/-- C6 (amended): the selector does not zero by the exact dominance test
"multiplier > maxSustainableMultiplier".  Instead it zeroes basket 7 (10×)
iff maxMultiplier < 8, basket 6 (8×) iff maxMultiplier < 4, and baskets 5
(4×) and 4 (2×) iff maxMultiplier < 2, where maxMultiplier is 0 — maximally
constrained, not unconstrained — when the aggregate wager is not positive;
the four lowest-multiplier baskets always keep their base weights. -/
theorem c6_weight_zeroing_amended (pb : List (ℤ × ℚ)) (wallet : ℚ) :
    walletAdjustedWeights pb wallet =
      [35, 25, 15, 5,
       if maxMultiplierOf pb wallet < 2 then 0 else 8,
       if maxMultiplierOf pb wallet < 2 then 0 else 6,
       if maxMultiplierOf pb wallet < 4 then 0 else 4,
       if maxMultiplierOf pb wallet < 8 then 0 else 2] :=
  adjustForWallet_eq _

/-- C10: for every draw and every wager/house-balance input the wallet-aware
weights keep the four low baskets at 35/25/15/5, so at least four weights are
positive (the redistribution branch is unreachable) and the total weight is
at least 80 (the zero-total fallback is unreachable), and the selected basket
index is always within the 8-element basket catalog. -/
theorem c10_selector_totality (nanos : ℕ) (pb : List (ℤ × ℚ)) (wallet : ℚ) :
    4 ≤ countPositive (walletAdjustedWeights pb wallet) ∧
    80 ≤ (walletAdjustedWeights pb wallet).sum ∧
    (walletAdjustedWeights pb wallet).getD 0 0 = 35 ∧
    (walletAdjustedWeights pb wallet).getD 1 0 = 25 ∧
    (walletAdjustedWeights pb wallet).getD 2 0 = 15 ∧
    (walletAdjustedWeights pb wallet).getD 3 0 = 5 ∧
    calculateWinningBasket nanos pb wallet < getAvailableBaskets.length := by
  have hcount : 4 ≤ countPositive (walletAdjustedWeights pb wallet) := by
    rw [walletAdjustedWeights_eq]
    unfold countPositive
    split_ifs <;> decide
  have hsum : 80 ≤ (walletAdjustedWeights pb wallet).sum := by
    rw [walletAdjustedWeights_eq]
    split_ifs <;> decide
  refine ⟨hcount, hsum, ?_, ?_, ?_, ?_, ?_⟩
  · rw [walletAdjustedWeights_eq]; rfl
  · rw [walletAdjustedWeights_eq]; rfl
  · rw [walletAdjustedWeights_eq]; rfl
  · rw [walletAdjustedWeights_eq]; rfl
  · show calculateWinningBasket nanos pb wallet < 8
    simp only [calculateWinningBasket]
    rw [if_neg (by omega : ¬ countPositive (walletAdjustedWeights pb wallet) < 4)]
    rw [if_neg (by omega : ¬ (walletAdjustedWeights pb wallet).sum = 0)]
    exact pickIndex_lt _ _ (walletAdjustedWeights_length pb wallet)

/-! ### Settlement helper lemmas -/

theorem playGame_valid_eq (env : Env) (st : SysState) (h : ValidSettle env st) :
    playGame env st = (.ok (), settleActiveGame env st) := by
  obtain ⟨h1, h2, h3⟩ := h
  unfold playGame
  rw [if_neg (by simp [h1]), if_neg (by simp [h2]), if_neg h3]

theorem applyWalletLimit_userId (f : ℚ) (r : GameResult) :
    (applyWalletLimit f r).userId = r.userId := by
  unfold applyWalletLimit
  split_ifs <;> rfl

theorem applyWalletLimit_ballId (f : ℚ) (r : GameResult) :
    (applyWalletLimit f r).ballId = r.ballId := by
  unfold applyWalletLimit
  split_ifs <;> rfl

theorem applyWalletLimit_betAmount (f : ℚ) (r : GameResult) :
    (applyWalletLimit f r).betAmount = r.betAmount := by
  unfold applyWalletLimit
  split_ifs <;> rfl

theorem applyWalletLimit_basketLanded (f : ℚ) (r : GameResult) :
    (applyWalletLimit f r).basketLanded = r.basketLanded := by
  unfold applyWalletLimit
  split_ifs <;> rfl

theorem applyWalletLimit_won (f : ℚ) (r : GameResult) :
    (applyWalletLimit f r).won = r.won := by
  unfold applyWalletLimit
  split_ifs <;> rfl

theorem applyWalletLimit_pushed (f : ℚ) (r : GameResult) :
    (applyWalletLimit f r).pushed = r.pushed := by
  unfold applyWalletLimit
  split_ifs <;> rfl

theorem commitPass_memResults (fail : Bool) (f : ℚ) :
    ∀ (rs : List GameResult) (acc : CommitAcc),
      (commitPass fail f acc rs).memResults = acc.memResults ++ rs.map (applyWalletLimit f)
  | [], acc => by simp [commitPass]
  | r :: rs, acc => by
    show (commitPass fail f (commitOne fail f acc r) rs).memResults = _
    rw [commitPass_memResults fail f rs (commitOne fail f acc r)]
    simp [commitOne]

theorem commitPass_results_fail (f : ℚ) :
    ∀ (rs : List GameResult) (acc : CommitAcc),
      (commitPass true f acc rs).results = acc.results
  | [], acc => by simp [commitPass]
  | r :: rs, acc => by
    show (commitPass true f (commitOne true f acc r) rs).results = _
    rw [commitPass_results_fail f rs (commitOne true f acc r)]
    simp [commitOne]

theorem commitPass_results_ok (f : ℚ) :
    ∀ (rs : List GameResult) (acc : CommitAcc),
      (commitPass false f acc rs).results = acc.results ++ rs.map (applyWalletLimit f)
  | [], acc => by simp [commitPass]
  | r :: rs, acc => by
    show (commitPass false f (commitOne false f acc r) rs).results = _
    rw [commitPass_results_ok f rs (commitOne false f acc r)]
    simp [commitOne]

theorem commitPass_users (fail : Bool) (f : ℚ) :
    ∀ (rs : List GameResult) (acc : CommitAcc),
      (commitPass fail f acc rs).users =
        (rs.map (applyWalletLimit f)).foldl
          (fun us r => creditUser us r.userId r.profit) acc.users
  | [], acc => by simp [commitPass]
  | r :: rs, acc => by
    show (commitPass fail f (commitOne fail f acc r) rs).users = _
    rw [commitPass_users fail f rs (commitOne fail f acc r)]
    simp [commitOne]

theorem updateBetStatus_no_match (targetId : ℕ) (status : String) :
    ∀ (bets : List Bet), (∀ b ∈ bets, b.id ≠ targetId) →
      updateBetStatus bets targetId status = bets
  | [], _ => rfl
  | b :: bs, h => by
    unfold updateBetStatus
    rw [List.map_cons, if_neg (h b (List.mem_cons_self b bs))]
    have := updateBetStatus_no_match targetId status bs
      (fun x hx => h x (List.mem_cons_of_mem b hx))
    unfold updateBetStatus at this
    rw [this]

theorem commitPass_bets (fail : Bool) (f : ℚ) :
    ∀ (rs : List GameResult) (acc : CommitAcc),
      (∀ b ∈ acc.bets, b.id < acc.nextId) →
      (commitPass fail f acc rs).bets = acc.bets
  | [], acc, _ => by simp [commitPass]
  | r :: rs, acc, h => by
    show (commitPass fail f (commitOne fail f acc r) rs).bets = _
    have hb : (commitOne fail f acc r).bets = acc.bets := by
      simp only [commitOne]
      exact updateBetStatus_no_match _ _ _ (fun b hb => Nat.ne_of_lt (h b hb))
    have hn : (commitOne fail f acc r).nextId = acc.nextId + 1 := rfl
    rw [commitPass_bets fail f rs (commitOne fail f acc r)
      (by rw [hb, hn]; exact fun b hbm => Nat.lt_succ_of_lt (h b hbm))]
    exact hb

theorem mem_ballIdsOf : ∀ {bets : List Bet} {b : Bet}, b ∈ bets → b.ballId ∈ ballIdsOf bets := by
  intro bets
  induction bets with
  | nil => intro b hb; cases hb
  | cons c cs ih =>
    intro b hb
    rcases List.mem_cons.mp hb with rfl | hb
    · exact List.mem_cons_self _ _
    · by_cases hx : b.ballId = c.ballId
      · rw [hx]
        exact List.mem_cons_self _ _
      · refine List.mem_cons_of_mem _ (List.mem_filter.mpr ⟨ih hb, ?_⟩)
        simp [hx]

theorem mem_betsOn_self {bets : List Bet} {b : Bet} (hb : b ∈ bets) :
    b ∈ betsOn bets b.ballId :=
  List.mem_filter.mpr ⟨hb, by simp⟩

theorem mem_tempOf_of_mem {env : Env} {st : SysState} {b : Bet} (hb : b ∈ st.bets) :
    nominalResult st.game.id b.ballId (targetsOf env st b.ballId) b ∈ tempOf env st := by
  unfold tempOf nominalResults
  exact List.mem_flatMap.mpr
    ⟨b.ballId, mem_ballIdsOf hb, List.mem_map_of_mem _ (mem_betsOn_self hb)⟩

theorem tempOf_mem {env : Env} {st : SysState} {r : GameResult} (hr : r ∈ tempOf env st) :
    ∃ b ∈ st.bets, r = nominalResult st.game.id b.ballId (targetsOf env st b.ballId) b := by
  unfold tempOf nominalResults at hr
  obtain ⟨ballId, _, hr⟩ := List.mem_flatMap.mp hr
  obtain ⟨b, hb, rfl⟩ := List.mem_map.mp hr
  obtain ⟨hbets, hfil⟩ := List.mem_filter.mp hb
  have hball : b.ballId = ballId := by simpa using hfil
  exact ⟨b, hbets, by rw [hball]⟩

/-- The basket catalog has no multiplier strictly between 1 and 2 (and the
out-of-range default is 0), so a non-winning multiplier is at most 1. -/
theorem basketValueAt_le_one : ∀ idx : ℕ, basketValueAt idx < 2 → basketValueAt idx ≤ 1 := by
  intro idx
  match idx with
  | 0 => intro _; norm_num [basketValueAt, getAvailableBaskets]
  | 1 => intro _; norm_num [basketValueAt, getAvailableBaskets]
  | 2 => intro _; norm_num [basketValueAt, getAvailableBaskets]
  | 3 => intro _; norm_num [basketValueAt, getAvailableBaskets]
  | 4 => intro h; exact absurd h (by norm_num [basketValueAt, getAvailableBaskets])
  | 5 => intro h; exact absurd h (by norm_num [basketValueAt, getAvailableBaskets])
  | 6 => intro h; exact absurd h (by norm_num [basketValueAt, getAvailableBaskets])
  | 7 => intro h; exact absurd h (by norm_num [basketValueAt, getAvailableBaskets])
  | n + 8 => intro _; norm_num [basketValueAt, getAvailableBaskets, List.getD]

theorem nominalResult_profit (gameId : ℕ) (ballId : ℤ) (idx : ℕ) (b : Bet) :
    (nominalResult gameId ballId idx b).profit = b.amount * basketValueAt idx - b.amount :=
  rfl

theorem nominalResult_won (gameId : ℕ) (ballId : ℤ) (idx : ℕ) (b : Bet) :
    (nominalResult gameId ballId idx b).won = decide (2 ≤ basketValueAt idx) :=
  rfl

theorem nominalResult_pushed (gameId : ℕ) (ballId : ℤ) (idx : ℕ) (b : Bet) :
    (nominalResult gameId ballId idx b).pushed = decide (basketValueAt idx = 1) :=
  rfl

theorem tempOf_profit_trichotomy (env : Env) (st : SysState)
    (hA : ∀ b ∈ st.bets, 0 ≤ b.amount) :
    ∀ r ∈ tempOf env st, r.pushed = true ∨ r.profit ≤ 0 ∨ (r.won = true ∧ 0 < r.profit) := by
  intro r hr
  obtain ⟨b, hb, rfl⟩ := tempOf_mem hr
  have ha := hA b hb
  rw [nominalResult_profit, nominalResult_won, nominalResult_pushed]
  set m := basketValueAt (targetsOf env st b.ballId) with hm
  by_cases h2 : 2 ≤ m
  · rcases le_or_lt (b.amount * m - b.amount) 0 with hp | hp
    · exact Or.inr (Or.inl hp)
    · exact Or.inr (Or.inr ⟨by simp [h2], hp⟩)
  · have hle : m ≤ 1 := basketValueAt_le_one _ (lt_of_not_le h2)
    by_cases h1 : m = 1
    · exact Or.inl (by simp [h1])
    · refine Or.inr (Or.inl ?_)
      have : b.amount * m ≤ b.amount * 1 := mul_le_mul_of_nonneg_left hle ha
      linarith

theorem tempOf_won_profit_nonneg (env : Env) (st : SysState)
    (hA : ∀ b ∈ st.bets, 0 ≤ b.amount) :
    ∀ r ∈ tempOf env st, r.won = true → 0 ≤ r.profit := by
  intro r hr hwon
  obtain ⟨b, hb, rfl⟩ := tempOf_mem hr
  have ha := hA b hb
  rw [nominalResult_won] at hwon
  have h2 : 2 ≤ basketValueAt (targetsOf env st b.ballId) := of_decide_eq_true hwon
  rw [nominalResult_profit]
  have : b.amount * 1 ≤ b.amount * basketValueAt (targetsOf env st b.ballId) :=
    mul_le_mul_of_nonneg_left (by linarith) ha
  linarith

theorem tempOf_pushed_profit_eq_zero (env : Env) (st : SysState) :
    ∀ r ∈ tempOf env st, r.pushed = true → r.profit = 0 := by
  intro r hr hpush
  obtain ⟨b, hb, rfl⟩ := tempOf_mem hr
  rw [nominalResult_pushed] at hpush
  have h1 : basketValueAt (targetsOf env st b.ballId) = 1 := of_decide_eq_true hpush
  rw [nominalResult_profit, h1]
  ring

theorem tempOf_walletLimited_false (env : Env) (st : SysState) :
    ∀ r ∈ tempOf env st, r.walletLimited = false := by
  intro r hr
  obtain ⟨b, _, rfl⟩ := tempOf_mem hr
  rfl

theorem totalNominalWins_nonneg : ∀ rs : List GameResult, 0 ≤ totalNominalWins rs := by
  intro rs
  unfold totalNominalWins
  induction rs with
  | nil => simp
  | cons r rs ih =>
    by_cases hc : (r.won && decide (0 < r.profit)) = true
    · have hc' : r.won = true ∧ 0 < r.profit := by simpa using hc
      simp only [List.filter_cons, hc, if_true]
      simp only [List.map_cons, List.sum_cons]
      linarith [hc'.2]
    · simp only [Bool.not_eq_true] at hc
      simp only [List.filter_cons, hc]
      simpa using ih

theorem factorOf_nonneg (env : Env) (st : SysState) (hW : 0 ≤ st.game.houseWallet) :
    0 ≤ factorOf env st := by
  simp only [factorOf]
  split_ifs with h
  · exact div_nonneg (mul_nonneg hW (by norm_num)) (totalNominalWins_nonneg _)
  · norm_num

theorem factorOf_mul_totalWins_le (env : Env) (st : SysState)
    (hW : 0 ≤ st.game.houseWallet) :
    factorOf env st * totalNominalWins (tempOf env st) ≤ st.game.houseWallet * (20/100) := by
  simp only [factorOf]
  split_ifs with h
  · have hM0 : 0 ≤ st.game.houseWallet * (20/100) := mul_nonneg hW (by norm_num)
    have hW0 : totalNominalWins (tempOf env st) ≠ 0 := by
      intro h0
      rw [h0] at h
      exact absurd h (not_lt.mpr hM0)
    rw [div_mul_cancel₀ _ hW0]
  · rw [one_mul]
    exact le_of_not_lt h

theorem sum_houseDelta_ge (f : ℚ) (hf : 0 ≤ f) :
    ∀ rs : List GameResult,
      (∀ r ∈ rs, r.pushed = true ∨ r.profit ≤ 0 ∨ (r.won = true ∧ 0 < r.profit)) →
      -(f * totalNominalWins rs) ≤ ((rs.map (applyWalletLimit f)).map houseDelta).sum := by
  intro rs
  induction rs with
  | nil => intro _; simp [totalNominalWins]
  | cons r rs ih =>
    intro hall
    have hr := hall r (List.mem_cons_self _ _)
    have ihs := ih (fun x hx => hall x (List.mem_cons_of_mem _ hx))
    simp only [List.map_cons, List.sum_cons]
    by_cases hc : (r.won && decide (0 < r.profit)) = true
    · have hp : 0 < r.profit := (by simpa using hc : r.won = true ∧ 0 < r.profit).2
      have h0 : 0 ≤ r.profit * f := mul_nonneg hp.le hf
      have hdelta : houseDelta (applyWalletLimit f r) = -(r.profit * f) := by
        unfold applyWalletLimit houseDelta
        rw [if_pos hc]
        simp only
        split_ifs with hpos
        · rfl
        · have hz : r.profit * f = 0 := le_antisymm (not_lt.mp hpos) h0
          rw [hz]
          simp
      have hWsum : totalNominalWins (r :: rs) = r.profit + totalNominalWins rs := by
        unfold totalNominalWins
        simp only [List.filter_cons, hc, if_true, List.map_cons, List.sum_cons]
      rw [hWsum, hdelta, mul_add, mul_comm f r.profit]
      linarith
    · have hWsum : totalNominalWins (r :: rs) = totalNominalWins rs := by
        unfold totalNominalWins
        rw [List.filter_cons_of_neg (by simpa using hc)]
      have hdelta : 0 ≤ houseDelta (applyWalletLimit f r) := by
        unfold applyWalletLimit
        rw [if_neg (by simpa using hc)]
        split_ifs with hpush
        · simp [houseDelta]
        · unfold houseDelta
          split_ifs with hpos
          · rcases hr with hpu | hple | ⟨hw, hpp⟩
            · exact absurd hpu hpush
            · simp only at hpos
              linarith
            · exact absurd (by simp [hw, hpp]) hc
          · exact abs_nonneg _
      rw [hWsum]
      linarith

theorem tempOf_pushed_not_won (env : Env) (st : SysState) :
    ∀ r ∈ tempOf env st, r.pushed = true → r.won = false := by
  intro r hr hpush
  obtain ⟨b, _, rfl⟩ := tempOf_mem hr
  rw [nominalResult_pushed] at hpush
  have h1 : basketValueAt (targetsOf env st b.ballId) = 1 := of_decide_eq_true hpush
  rw [nominalResult_won, h1]
  norm_num

theorem settleActiveGame_wallet_balance (env : Env) (st : SysState) :
    (settleActiveGame env st).wallet.balance =
      st.wallet.balance + ((finalsOf env st).map houseDelta).sum
        - st.game.totalBets * (2/100 + env.adminRand * (2/100)) := by
  simp only [settleActiveGame]
  rw [commitPass_memResults]
  simp only [List.nil_append, finalsOf]
  ring

theorem settleActiveGame_wallet_adminProfit (env : Env) (st : SysState) :
    (settleActiveGame env st).wallet.adminProfit =
      st.wallet.adminProfit + st.game.totalBets * (2/100 + env.adminRand * (2/100)) :=
  rfl

theorem settleActiveGame_game_status (env : Env) (st : SysState) :
    (settleActiveGame env st).game.status = "completed" :=
  rfl

theorem settleActiveGame_results_ok (env : Env) (st : SysState)
    (hres : env.resultFail = false) :
    (settleActiveGame env st).results = st.results ++ finalsOf env st := by
  simp only [settleActiveGame]
  rw [hres, commitPass_results_ok]
  rfl

theorem settleActiveGame_results_fail (env : Env) (st : SysState)
    (hres : env.resultFail = true) :
    (settleActiveGame env st).results = st.results := by
  simp only [settleActiveGame]
  rw [hres, commitPass_results_fail]

theorem settleActiveGame_users (env : Env) (st : SysState) :
    (settleActiveGame env st).users =
      (finalsOf env st).foldl (fun us r => creditUser us r.userId r.profit) st.users := by
  simp only [settleActiveGame]
  rw [commitPass_users]
  rfl

/-- Sign of the balance adjustment the second pass applies: non-negative for
winners (given a non-negative factor) and pushes, and the untouched nominal
profit for everything else. -/
theorem applyWalletLimit_profit_sign (f : ℚ) (hf : 0 ≤ f) (r : GameResult)
    (hwon : r.won = true → 0 ≤ r.profit) :
    ((r.won = true ∨ r.pushed = true) → 0 ≤ (applyWalletLimit f r).profit) ∧
    (r.won = false → r.pushed = false → (applyWalletLimit f r).profit = r.profit) := by
  constructor
  · intro hwp
    unfold applyWalletLimit
    by_cases hc : (r.won && decide (0 < r.profit)) = true
    · rw [if_pos hc]
      have hp : 0 < r.profit := (by simpa using hc : r.won = true ∧ 0 < r.profit).2
      exact mul_nonneg hp.le hf
    · rw [if_neg hc]
      split_ifs with hpu
      · exact le_refl 0
      · show 0 ≤ r.profit
        rcases hwp with hw | hp
        · exact hwon hw
        · exact absurd hp hpu
  · intro hw hp
    unfold applyWalletLimit
    rw [if_neg (by simp [hw]), if_neg (by simp [hp])]

/-! ### PlaceBet lemmas -/

theorem validateEntries_ok_entries :
    ∀ (req : List (ℤ × ℚ)) (t : ℚ), validateEntries req = .ok t →
      ∀ p ∈ req, isValidBallId p.1 = true ∧ 0 < p.2 ∧ p.2 ≤ 1000
  | [], _, _ => by intro p hp; cases hp
  | (ballId, amount) :: rest, t, h => by
    intro p hp
    unfold validateEntries at h
    by_cases hv : isValidBallId ballId = true
    · rw [if_pos hv] at h
      by_cases ha : amount ≤ 0
      · rw [if_pos ha] at h; cases h
      · rw [if_neg ha] at h
        by_cases hm : 1000 < amount
        · rw [if_pos hm] at h; cases h
        · rw [if_neg hm] at h
          rcases hrest : validateEntries rest with e | t'
          · simp only [hrest] at h
            cases h
          · simp only [hrest] at h
            rcases List.mem_cons.mp hp with rfl | hp'
            · exact ⟨hv, lt_of_not_le ha, le_of_not_lt hm⟩
            · exact validateEntries_ok_entries rest t' hrest p hp'
    · rw [if_neg hv] at h; cases h

theorem validateEntries_ok_total :
    ∀ (req : List (ℤ × ℚ)) (t : ℚ), validateEntries req = .ok t →
      t = totalPlayerBetsOf req
  | [], t, h => by
    unfold validateEntries at h
    cases h
    simp [totalPlayerBetsOf]
  | (ballId, amount) :: rest, t, h => by
    unfold validateEntries at h
    by_cases hv : isValidBallId ballId = true
    · rw [if_pos hv] at h
      by_cases ha : amount ≤ 0
      · rw [if_pos ha] at h; cases h
      · rw [if_neg ha] at h
        by_cases hm : 1000 < amount
        · rw [if_pos hm] at h; cases h
        · rw [if_neg hm] at h
          rcases hrest : validateEntries rest with e | t'
          · simp only [hrest] at h
            cases h
          · simp only [hrest] at h
            cases h
            have := validateEntries_ok_total rest t' hrest
            simp [totalPlayerBetsOf] at this ⊢
            rw [this]
    · rw [if_neg hv] at h; cases h

/-- C9: PlaceBet rejects — empty bet map, invalid ball id, non-positive
amount, per-ball amount above 1000, total outside [10, 5000], or balance
below the total — with an error and an unchanged state: no bet created, no
balance debited, no round aggregate changed. -/
theorem c9_rejection_no_mutation (st : BetSysState) (userId : ℕ) (req : List (ℤ × ℚ))
    (h : req = [] ∨
      (∃ p ∈ req, isValidBallId p.1 = false ∨ p.2 ≤ 0 ∨ 1000 < p.2) ∨
      5000 < totalPlayerBetsOf req ∨
      totalPlayerBetsOf req < 10 ∨
      (∃ bal, lookupBalance st.users userId = some bal ∧ bal < totalPlayerBetsOf req)) :
    ∃ e, placeBet st userId req = (.error e, st) := by
  by_cases h0 : req = []
  · exact ⟨"no balls selected for betting", by rw [placeBet, if_pos h0]⟩
  · rcases hval : validateEntries req with e | t
    · exact ⟨e, by rw [placeBet, if_neg h0]; simp only [hval]⟩
    · have ht := validateEntries_ok_total req t hval
      have hgood := validateEntries_ok_entries req t hval
      rcases h with h0' | hbad | h5 | h10 | hbal
      · exact absurd h0' h0
      · obtain ⟨p, hp, hbadp⟩ := hbad
        obtain ⟨hid, hpos, hcap⟩ := hgood p hp
        rcases hbadp with hb | hb | hb
        · rw [hid] at hb; cases hb
        · linarith
        · linarith
      · refine ⟨"maximum total bet amount is 5000", ?_⟩
        rw [placeBet, if_neg h0]
        simp only [hval]
        rw [if_pos (by rw [ht]; exact h5)]
      · by_cases h5 : 5000 < t
        · refine ⟨"maximum total bet amount is 5000", ?_⟩
          rw [placeBet, if_neg h0]
          simp only [hval]
          rw [if_pos h5]
        · refine ⟨"minimum total bet amount is 10", ?_⟩
          rw [placeBet, if_neg h0]
          simp only [hval]
          rw [if_neg h5, if_pos (by rw [ht]; exact h10)]
      · obtain ⟨bal, hlook, hblt⟩ := hbal
        by_cases h5 : 5000 < t
        · refine ⟨"maximum total bet amount is 5000", ?_⟩
          rw [placeBet, if_neg h0]
          simp only [hval]
          rw [if_pos h5]
        · by_cases h10 : t < 10
          · refine ⟨"minimum total bet amount is 10", ?_⟩
            rw [placeBet, if_neg h0]
            simp only [hval]
            rw [if_neg h5, if_pos h10]
          · refine ⟨"insufficient balance", ?_⟩
            rw [placeBet, if_neg h0]
            simp only [hval]
            rw [if_neg h5, if_neg h10]
            simp only [hlook]
            rw [if_pos (by rw [ht]; exact hblt)]

/-- C9 witness: the request `{0: 100, 1: 5000}` (5000 on one ball exceeds the
per-ball cap) is rejected with no state change. -/
theorem c9_rejection_no_mutation_witness :
    ∃ e, placeBet stC9w 1 [(0, 100), (1, 5000)] = (.error e, stC9w) :=
  c9_rejection_no_mutation stC9w 1 [(0, 100), (1, 5000)]
    (Or.inr (Or.inl ⟨(1, 5000), by norm_num, Or.inr (Or.inr (by norm_num))⟩))

/-! ### Claim theorems on PlayGame -/

/-- C1 counterexample: the per-round solvency cap does not hold as claimed.
In the round stC1 (house balance 1000 before settlement) the capped payout is
exactly 200 = 20% of the balance, and the admin skim (here at the legal draw
rate 0.03) pushes the total decrease past the 20% cap: the balance lands at
797 < 800. -/
theorem c1_solvency_counterexample :
    (playGame envC1 stC1).1 = .ok () ∧
    ((playGame envC1 stC1).2).wallet.balance = 797 ∧
    ((playGame envC1 stC1).2).wallet.balance <
      stC1.wallet.balance - (20/100) * stC1.wallet.balance ∧
    (2/100 : ℚ) ≤ 2/100 + envC1.adminRand * (2/100) ∧
    2/100 + envC1.adminRand * (2/100) ≤ 4/100 := by
  have h2 : (playGame envC1 stC1).2 = settleActiveGame envC1 stC1 := by
    rw [playGame_valid_eq envC1 stC1 ⟨rfl, rfl, by simp [stC1]⟩]
  have h1 : (playGame envC1 stC1).1 = .ok () := by
    rw [playGame_valid_eq envC1 stC1 ⟨rfl, rfl, by simp [stC1]⟩]
  refine ⟨h1, ?_, ?_, by norm_num [envC1], by norm_num [envC1]⟩ <;> rw [h2] <;>
  norm_num [settleActiveGame, tempOf, targetsOf, factorOf, nominalResults,
    nominalResult, commitPass, commitOne, applyWalletLimit, betStatusOf, updateBetStatus,
    creditUser, lookupBalance, houseDelta, totalNominalWins, calculateWinningBasket,
    walletAdjustedWeights, adjustForWallet, maxMultiplierOf, maxAllowedWinOf,
    totalPlayerBetsOf, defaultWeights, countPositive, pickIndex, selectLoop,
    redistributeLoop, ballIdsOf, betsOn, wagerOn, basketValueAt, getAvailableBaskets,
    getAvailableBalls, Bet.calculateWinAmount, Bet.calculateProfit, Bet.isWin, Bet.isPush,
    stC1, envC1, List.filter, List.foldl, List.find?]

/-- C1 (amended): per settled round the house balance decreases by at most
20% of the pre-settlement balance PLUS the admin skim, which is itself at
most 4% of the round's total wagered amount (the skim rate is
0.02 + rand·0.02 with rand ∈ [0,1)); the bare 20% bound of the claim holds
only before the skim is subtracted. -/
theorem c1_solvency_amended (env : Env) (st : SysState) (h : ValidSettle env st)
    (hA : ∀ b ∈ st.bets, 0 ≤ b.amount)
    (hsnap : st.wallet.balance = st.game.houseWallet)
    (hW : 0 ≤ st.game.houseWallet)
    (hT : 0 ≤ st.game.totalBets)
    (hr0 : 0 ≤ env.adminRand) (hr1 : env.adminRand ≤ 1) :
    st.wallet.balance - (20/100) * st.wallet.balance - (4/100) * st.game.totalBets
      ≤ ((playGame env st).2).wallet.balance := by
  have h2 : (playGame env st).2 = settleActiveGame env st := by
    rw [playGame_valid_eq env st h]
  rw [h2, settleActiveGame_wallet_balance]
  have hsum : -(factorOf env st * totalNominalWins (tempOf env st))
      ≤ ((finalsOf env st).map houseDelta).sum := by
    unfold finalsOf
    exact sum_houseDelta_ge _ (factorOf_nonneg env st hW) _
      (tempOf_profit_trichotomy env st hA)
  have hfm := factorOf_mul_totalWins_le env st hW
  have hskim : st.game.totalBets * (2/100 + env.adminRand * (2/100))
      ≤ (4/100) * st.game.totalBets := by
    nlinarith [mul_nonneg hT hr0, mul_le_of_le_one_right hT hr1]
  have hMc : st.game.houseWallet * (20/100) = (20/100) * st.wallet.balance := by
    rw [hsnap]; ring
  linarith

/-- C1 amended, witnessed on the concrete round stC1w: 1000 − 200 − 4 ≤ 797. -/
theorem c1_solvency_amended_witness :
    stC1w.wallet.balance - (20/100) * stC1w.wallet.balance
      - (4/100) * stC1w.game.totalBets
      ≤ ((playGame envC1w stC1w).2).wallet.balance :=
  c1_solvency_amended envC1w stC1w ⟨rfl, rfl, by simp [stC1w, stC1]⟩
    (by intro b hb; simp [stC1w, stC1] at hb; simp [hb])
    rfl (by norm_num [stC1w, stC1]) (by norm_num [stC1w, stC1])
    (by norm_num [envC1w, envC1]) (by norm_num [envC1w, envC1])

/-- C2 counterexample: in the two-ball round stC2 the winning-ball draw picks
ball 0, yet the bet on ball 1 is settled against ball 1's own basket (2×) and
receives a positive payout of 100 — bets on non-winning balls do not settle
as 0× losses. -/
theorem c2_winning_ball_only_counterexample :
    (playGame envC2 stC2).1 = .ok () ∧
    ((playGame envC2 stC2).2).game.winningBallId = some 0 ∧
    lookupBalance ((playGame envC2 stC2).2).users 2 = some 100 ∧
    ∃ r ∈ ((playGame envC2 stC2).2).results,
      r.userId = 2 ∧ r.ballId = 1 ∧ r.won = true ∧ 0 < r.profit := by
  have h2 : (playGame envC2 stC2).2 = settleActiveGame envC2 stC2 := by
    rw [playGame_valid_eq envC2 stC2 ⟨rfl, rfl, by simp [stC2]⟩]
  have h1 : (playGame envC2 stC2).1 = .ok () := by
    rw [playGame_valid_eq envC2 stC2 ⟨rfl, rfl, by simp [stC2]⟩]
  refine ⟨h1, ?_, ?_, ?_⟩ <;> rw [h2] <;>
  norm_num [settleActiveGame, tempOf, targetsOf, factorOf, nominalResults,
    nominalResult, commitPass, commitOne, applyWalletLimit, betStatusOf, updateBetStatus,
    creditUser, lookupBalance, houseDelta, totalNominalWins, calculateWinningBasket,
    walletAdjustedWeights, adjustForWallet, maxMultiplierOf, maxAllowedWinOf,
    totalPlayerBetsOf, defaultWeights, countPositive, pickIndex, selectLoop,
    redistributeLoop, ballIdsOf, betsOn, wagerOn, basketValueAt, getAvailableBaskets,
    getAvailableBalls, Bet.calculateWinAmount, Bet.calculateProfit, Bet.isWin, Bet.isPush,
    stC2, envC2, List.filter, List.foldl, List.find?]

/-- C2 (amended): every bet of the round — on every ball — participates in
settlement, scored against its own ball's independently drawn basket; the
winning-ball draw only determines the id recorded on the round and has no
effect on user balances, persisted results, or the house wallet. -/
theorem c2_all_bets_participate_amended (env : Env) (n : ℕ) (st : SysState)
    (h : ValidSettle env st) (hres : env.resultFail = false) (h0 : st.results = []) :
    (playGame { env with ballPickNanos := n } st).1 = (playGame env st).1 ∧
    ((playGame { env with ballPickNanos := n } st).2).users = ((playGame env st).2).users ∧
    ((playGame { env with ballPickNanos := n } st).2).results =
      ((playGame env st).2).results ∧
    ((playGame { env with ballPickNanos := n } st).2).wallet =
      ((playGame env st).2).wallet ∧
    ∀ b ∈ st.bets, ∃ r ∈ ((playGame env st).2).results,
      r.userId = b.userId ∧ r.ballId = b.ballId ∧ r.betAmount = b.amount ∧
      r.basketLanded = targetsOf env st b.ballId := by
  have h' : ValidSettle { env with ballPickNanos := n } st := ⟨h.1, h.2.1, h.2.2⟩
  have ha1 : (playGame env st).1 = .ok () := by rw [playGame_valid_eq env st h]
  have ha2 : (playGame env st).2 = settleActiveGame env st := by
    rw [playGame_valid_eq env st h]
  have hb1 : (playGame { env with ballPickNanos := n } st).1 = .ok () := by
    rw [playGame_valid_eq _ st h']
  have hb2 : (playGame { env with ballPickNanos := n } st).2 =
      settleActiveGame { env with ballPickNanos := n } st := by
    rw [playGame_valid_eq _ st h']
  refine ⟨by rw [ha1, hb1], by rw [ha2, hb2]; rfl, by rw [ha2, hb2]; rfl,
    by rw [ha2, hb2]; rfl, ?_⟩
  intro b hb
  rw [ha2, settleActiveGame_results_ok env st hres, h0, List.nil_append]
  refine ⟨applyWalletLimit (factorOf env st)
      (nominalResult st.game.id b.ballId (targetsOf env st b.ballId) b),
    List.mem_map_of_mem _ (mem_tempOf_of_mem hb), ?_, ?_, ?_, ?_⟩
  · rw [applyWalletLimit_userId]; rfl
  · rw [applyWalletLimit_ballId]; rfl
  · rw [applyWalletLimit_betAmount]; rfl
  · rw [applyWalletLimit_basketLanded]; rfl

/-- C2 amended, witnessed on the two-ball round stC2w with a different
winning-ball draw. -/
theorem c2_all_bets_participate_amended_witness :
    (playGame { envC2w with ballPickNanos := 1 } stC2w).1 = (playGame envC2w stC2w).1 ∧
    ((playGame { envC2w with ballPickNanos := 1 } stC2w).2).users =
      ((playGame envC2w stC2w).2).users ∧
    ((playGame { envC2w with ballPickNanos := 1 } stC2w).2).results =
      ((playGame envC2w stC2w).2).results ∧
    ((playGame { envC2w with ballPickNanos := 1 } stC2w).2).wallet =
      ((playGame envC2w stC2w).2).wallet ∧
    ∀ b ∈ stC2w.bets, ∃ r ∈ ((playGame envC2w stC2w).2).results,
      r.userId = b.userId ∧ r.ballId = b.ballId ∧ r.betAmount = b.amount ∧
      r.basketLanded = targetsOf envC2w stC2w b.ballId :=
  c2_all_bets_participate_amended envC2w 1 stC2w ⟨rfl, rfl, by simp [stC2w, stC2]⟩
    rfl rfl

/-- C3 counterexample: settlement does re-debit.  In the round stC3 the bet
of 100 loses at 0.25×, and the second pass credits the bettor's balance by
the negative final profit −75: the stored balance drops from 500 to 425 at
settlement, on top of the 100 already debited at placement. -/
theorem c3_settlement_redebit_counterexample :
    (playGame envC3 stC3).1 = .ok () ∧
    lookupBalance stC3.users 1 = some 500 ∧
    lookupBalance ((playGame envC3 stC3).2).users 1 = some 425 ∧
    ∃ r ∈ ((playGame envC3 stC3).2).results, r.profit < 0 := by
  have h2 : (playGame envC3 stC3).2 = settleActiveGame envC3 stC3 := by
    rw [playGame_valid_eq envC3 stC3 ⟨rfl, rfl, by simp [stC3]⟩]
  have h1 : (playGame envC3 stC3).1 = .ok () := by
    rw [playGame_valid_eq envC3 stC3 ⟨rfl, rfl, by simp [stC3]⟩]
  refine ⟨h1, by norm_num [stC3, lookupBalance, List.find?], ?_, ?_⟩ <;> rw [h2] <;>
  norm_num [settleActiveGame, tempOf, targetsOf, factorOf, nominalResults,
    nominalResult, commitPass, commitOne, applyWalletLimit, betStatusOf, updateBetStatus,
    creditUser, lookupBalance, houseDelta, totalNominalWins, calculateWinningBasket,
    walletAdjustedWeights, adjustForWallet, maxMultiplierOf, maxAllowedWinOf,
    totalPlayerBetsOf, defaultWeights, countPositive, pickIndex, selectLoop,
    redistributeLoop, ballIdsOf, betsOn, wagerOn, basketValueAt, getAvailableBaskets,
    getAvailableBalls, Bet.calculateWinAmount, Bet.calculateProfit, Bet.isWin, Bet.isPush,
    stC3, envC3, List.filter, List.foldl, List.find?]

/-- C3 (amended): settlement adjusts each bettor's stored balance by the
result's final profit.  That adjustment is non-negative for won and pushed
results, but for a losing bet it equals the negative nominal profit
amount × (m − 1) < 0 — a further deduction at settlement on top of the stake
debited at placement. -/
theorem c3_settlement_adjustment_amended (env : Env) (st : SysState)
    (h : ValidSettle env st)
    (hA : ∀ b ∈ st.bets, 0 ≤ b.amount) (hW : 0 ≤ st.game.houseWallet) :
    ((playGame env st).2).users =
      (finalsOf env st).foldl (fun us r => creditUser us r.userId r.profit) st.users ∧
    ∀ r0 ∈ tempOf env st,
      ((r0.won = true ∨ r0.pushed = true) →
        0 ≤ (applyWalletLimit (factorOf env st) r0).profit) ∧
      (r0.won = false → r0.pushed = false →
        (applyWalletLimit (factorOf env st) r0).profit = r0.profit ∧ r0.profit ≤ 0) := by
  have h2 : (playGame env st).2 = settleActiveGame env st := by
    rw [playGame_valid_eq env st h]
  refine ⟨by rw [h2, settleActiveGame_users], ?_⟩
  intro r0 hr0
  have hf := factorOf_nonneg env st hW
  have hsign := applyWalletLimit_profit_sign (factorOf env st) hf r0
    (tempOf_won_profit_nonneg env st hA r0 hr0)
  refine ⟨hsign.1, ?_⟩
  intro hw hp
  refine ⟨hsign.2 hw hp, ?_⟩
  rcases tempOf_profit_trichotomy env st hA r0 hr0 with hpu | hple | ⟨hwon, _⟩
  · rw [hpu] at hp; cases hp
  · exact hple
  · rw [hwon] at hw; cases hw

/-- C3 amended, witnessed on the losing round stC3w. -/
theorem c3_settlement_adjustment_amended_witness :
    ((playGame envC3w stC3w).2).users =
      (finalsOf envC3w stC3w).foldl
        (fun us r => creditUser us r.userId r.profit) stC3w.users ∧
    ∀ r0 ∈ tempOf envC3w stC3w,
      ((r0.won = true ∨ r0.pushed = true) →
        0 ≤ (applyWalletLimit (factorOf envC3w stC3w) r0).profit) ∧
      (r0.won = false → r0.pushed = false →
        (applyWalletLimit (factorOf envC3w stC3w) r0).profit = r0.profit ∧
        r0.profit ≤ 0) :=
  c3_settlement_adjustment_amended envC3w stC3w ⟨rfl, rfl, by simp [stC3w, stC3]⟩
    (by intro b hb; simp [stC3w, stC3] at hb; simp [hb])
    (by norm_num [stC3w, stC3])

/-- C5: the claim is right and the code is wrong.  The status-update call of
the second pass passes a freshly generated ObjectID instead of the settled
bet's id, so the update matches no stored bet: after settling the round stC5
— whose single bet won and was paid — the stored bet still has status
"pending"; no bet of the round ever transitions to won/pushed/lost. -/
theorem c5_bets_stay_pending :
    (playGame envC5 stC5).1 = .ok () ∧
    ((playGame envC5 stC5).2).bets = stC5.bets ∧
    (∀ b ∈ ((playGame envC5 stC5).2).bets, b.status = "pending") ∧
    ∃ r ∈ ((playGame envC5 stC5).2).results, r.userId = 1 ∧ r.won = true := by
  have h2 : (playGame envC5 stC5).2 = settleActiveGame envC5 stC5 := by
    rw [playGame_valid_eq envC5 stC5 ⟨rfl, rfl, by simp [stC5, stC1]⟩]
  have h1 : (playGame envC5 stC5).1 = .ok () := by
    rw [playGame_valid_eq envC5 stC5 ⟨rfl, rfl, by simp [stC5, stC1]⟩]
  refine ⟨h1, ?_, ?_, ?_⟩ <;> rw [h2] <;>
  norm_num [settleActiveGame, tempOf, targetsOf, factorOf, nominalResults,
    nominalResult, commitPass, commitOne, applyWalletLimit, betStatusOf, updateBetStatus,
    creditUser, lookupBalance, houseDelta, totalNominalWins, calculateWinningBasket,
    walletAdjustedWeights, adjustForWallet, maxMultiplierOf, maxAllowedWinOf,
    totalPlayerBetsOf, defaultWeights, countPositive, pickIndex, selectLoop,
    redistributeLoop, ballIdsOf, betsOn, wagerOn, basketValueAt, getAvailableBaskets,
    getAvailableBalls, Bet.calculateWinAmount, Bet.calculateProfit, Bet.isWin, Bet.isPush,
    stC5, envC5, stC1, envC1, List.filter, List.foldl, List.find?]

/-- C7 counterexample: with every CreateGameResult call failing, settling the
round stC7 still returns success, the round is marked completed (it was
completed before the commit pass even began), and no result is persisted —
the failure neither surfaces nor leaves the round active for retry. -/
theorem c7_commit_failure_counterexample :
    envC7.resultFail = true ∧
    (playGame envC7 stC7).1 = .ok () ∧
    ((playGame envC7 stC7).2).game.status = "completed" ∧
    ((playGame envC7 stC7).2).results = [] := by
  have h2 : (playGame envC7 stC7).2 = settleActiveGame envC7 stC7 := by
    rw [playGame_valid_eq envC7 stC7 ⟨rfl, rfl, by simp [stC7, stC1]⟩]
  have h1 : (playGame envC7 stC7).1 = .ok () := by
    rw [playGame_valid_eq envC7 stC7 ⟨rfl, rfl, by simp [stC7, stC1]⟩]
  refine ⟨rfl, h1, by rw [h2]; rfl, ?_⟩
  rw [h2, settleActiveGame_results_fail envC7 stC7 rfl]
  rfl

/-- C7 (amended): a CreateGameResult persistence failure during the commit
pass is logged and ignored: PlayGame still returns success, the round —
already marked completed before the commit pass — stays completed, nothing
is persisted to the results store, and the house wallet is still updated
(including the admin skim), so the settlement partially applies and cannot
be retried. -/
theorem c7_commit_failure_amended (env : Env) (st : SysState)
    (h : ValidSettle env st) (hfail : env.resultFail = true) :
    (playGame env st).1 = .ok () ∧
    ((playGame env st).2).game.status = "completed" ∧
    ((playGame env st).2).results = st.results ∧
    ((playGame env st).2).wallet.adminProfit =
      st.wallet.adminProfit + st.game.totalBets * (2/100 + env.adminRand * (2/100)) := by
  have h1 : (playGame env st).1 = .ok () := by rw [playGame_valid_eq env st h]
  have h2 : (playGame env st).2 = settleActiveGame env st := by
    rw [playGame_valid_eq env st h]
  exact ⟨h1, by rw [h2]; rfl,
    by rw [h2, settleActiveGame_results_fail env st hfail],
    by rw [h2, settleActiveGame_wallet_adminProfit]⟩

/-- C7 amended, witnessed on stC7w with the failing result store. -/
theorem c7_commit_failure_amended_witness :
    (playGame envC7w stC7w).1 = .ok () ∧
    ((playGame envC7w stC7w).2).game.status = "completed" ∧
    ((playGame envC7w stC7w).2).results = stC7w.results ∧
    ((playGame envC7w stC7w).2).wallet.adminProfit =
      stC7w.wallet.adminProfit +
        stC7w.game.totalBets * (2/100 + envC7w.adminRand * (2/100)) :=
  c7_commit_failure_amended envC7w stC7w ⟨rfl, rfl, by simp [stC7w, stC7, stC1]⟩ rfl

/-- C4: cap scaling correctness.  In every settled round the persisted
results are the nominal results rewritten by the wallet-limit pass; when the
nominal winner total W exceeds maxAllowedWin = 20% of the round-start house
balance, every winning result's paid profit is its nominal profit times
maxAllowedWin/W and is flagged walletLimited, while pushes get profit 0;
when W is within the cap every result keeps its nominal profit and no result
is flagged; results that neither won nor pushed keep profit and winAmount
untouched. -/
theorem c4_cap_scaling (env : Env) (st : SysState) (h : ValidSettle env st)
    (hres : env.resultFail = false) (h0 : st.results = [])
    (hW : 0 ≤ st.game.houseWallet) :
    ((playGame env st).2).results = finalsOf env st ∧
    (st.game.houseWallet * (20/100) < totalNominalWins (tempOf env st) →
      ∀ r ∈ tempOf env st,
        (r.won = true ∧ 0 < r.profit →
          (applyWalletLimit (factorOf env st) r).profit =
            r.profit *
              (st.game.houseWallet * (20/100) / totalNominalWins (tempOf env st)) ∧
          (applyWalletLimit (factorOf env st) r).walletLimited = true) ∧
        (r.pushed = true → (applyWalletLimit (factorOf env st) r).profit = 0)) ∧
    (totalNominalWins (tempOf env st) ≤ st.game.houseWallet * (20/100) →
      ∀ r ∈ tempOf env st,
        (applyWalletLimit (factorOf env st) r).profit = r.profit ∧
        (applyWalletLimit (factorOf env st) r).walletLimited = false) ∧
    (∀ r ∈ tempOf env st, r.won = false → r.pushed = false →
      (applyWalletLimit (factorOf env st) r).profit = r.profit ∧
      (applyWalletLimit (factorOf env st) r).winAmount = r.winAmount ∧
      (applyWalletLimit (factorOf env st) r).walletLimited = false) := by
  have h2 : (playGame env st).2 = settleActiveGame env st := by
    rw [playGame_valid_eq env st h]
  refine ⟨by rw [h2, settleActiveGame_results_ok env st hres, h0, List.nil_append],
    ?_, ?_, ?_⟩
  · intro hlt r hr
    have hfac : factorOf env st =
        st.game.houseWallet * (20/100) / totalNominalWins (tempOf env st) := by
      simp only [factorOf]
      rw [if_pos hlt]
    have hWpos : 0 < totalNominalWins (tempOf env st) :=
      lt_of_le_of_lt (mul_nonneg hW (by norm_num)) hlt
    constructor
    · rintro ⟨hwon, hp⟩
      have hc : (r.won && decide (0 < r.profit)) = true := by simp [hwon, hp]
      constructor
      · rw [hfac]
        unfold applyWalletLimit
        rw [if_pos hc]
      · rw [hfac]
        unfold applyWalletLimit
        rw [if_pos hc]
        show decide (st.game.houseWallet * (20/100) /
          totalNominalWins (tempOf env st) < 1) = true
        simp only [decide_eq_true_eq]
        exact (div_lt_one hWpos).mpr hlt
    · intro hpush
      have hwonf : r.won = false := tempOf_pushed_not_won env st r hr hpush
      have hc : ¬ (r.won && decide (0 < r.profit)) = true := by simp [hwonf]
      unfold applyWalletLimit
      rw [if_neg hc, if_pos hpush]
  · intro hle r hr
    have hfac : factorOf env st = 1 := by
      simp only [factorOf]
      rw [if_neg (not_lt.mpr hle)]
    have hwl := tempOf_walletLimited_false env st r hr
    rw [hfac]
    by_cases hc : (r.won && decide (0 < r.profit)) = true
    · constructor
      · unfold applyWalletLimit
        rw [if_pos hc]
        show r.profit * 1 = r.profit
        ring
      · unfold applyWalletLimit
        rw [if_pos hc]
        show decide ((1 : ℚ) < 1) = false
        norm_num
    · by_cases hpush : r.pushed = true
      · constructor
        · unfold applyWalletLimit
          rw [if_neg hc, if_pos hpush]
          exact (tempOf_pushed_profit_eq_zero env st r hr hpush).symm
        · unfold applyWalletLimit
          rw [if_neg hc, if_pos hpush]
          exact hwl
      · constructor
        · unfold applyWalletLimit
          rw [if_neg hc, if_neg hpush]
        · unfold applyWalletLimit
          rw [if_neg hc, if_neg hpush]
          exact hwl
  · intro r hr hwonf hpushf
    have hc : ¬ (r.won && decide (0 < r.profit)) = true := by simp [hwonf]
    have hpush : ¬ r.pushed = true := by simp [hpushf]
    have hwl := tempOf_walletLimited_false env st r hr
    refine ⟨?_, ?_, ?_⟩ <;> unfold applyWalletLimit <;> rw [if_neg hc, if_neg hpush]
    exact hwl

/-- C4 witnessed on the capped round stC4w (nominal winner total 300 against
a cap of 200). -/
theorem c4_cap_scaling_witness :
    ((playGame envC4w stC4w).2).results = finalsOf envC4w stC4w ∧
    (stC4w.game.houseWallet * (20/100) < totalNominalWins (tempOf envC4w stC4w) →
      ∀ r ∈ tempOf envC4w stC4w,
        (r.won = true ∧ 0 < r.profit →
          (applyWalletLimit (factorOf envC4w stC4w) r).profit =
            r.profit * (stC4w.game.houseWallet * (20/100) /
              totalNominalWins (tempOf envC4w stC4w)) ∧
          (applyWalletLimit (factorOf envC4w stC4w) r).walletLimited = true) ∧
        (r.pushed = true →
          (applyWalletLimit (factorOf envC4w stC4w) r).profit = 0)) ∧
    (totalNominalWins (tempOf envC4w stC4w) ≤ stC4w.game.houseWallet * (20/100) →
      ∀ r ∈ tempOf envC4w stC4w,
        (applyWalletLimit (factorOf envC4w stC4w) r).profit = r.profit ∧
        (applyWalletLimit (factorOf envC4w stC4w) r).walletLimited = false) ∧
    (∀ r ∈ tempOf envC4w stC4w, r.won = false → r.pushed = false →
      (applyWalletLimit (factorOf envC4w stC4w) r).profit = r.profit ∧
      (applyWalletLimit (factorOf envC4w stC4w) r).winAmount = r.winAmount ∧
      (applyWalletLimit (factorOf envC4w stC4w) r).walletLimited = false) :=
  c4_cap_scaling envC4w stC4w ⟨rfl, rfl, by simp [stC4w, stC1]⟩ rfl rfl
    (by norm_num [stC4w, stC1])

/-- C8: classification boundaries.  For every settled bet the status the
second pass writes (computed from the IsWin/IsPush flags stored in the
result, which the wallet-limit pass preserves) is "won" iff the landing
multiplier m satisfies m ≥ 2, "pushed" iff m = 1, and "lost" otherwise; in
particular basket index 4 (m = 2) classifies as won, index 3 (m = 1) as
pushed, and index 2 (m = 0.75) as lost. -/
theorem c8_classification : ∀ (gameId : ℕ) (ballId : ℤ) (b : Bet) (f : ℚ),
    (∀ idx : ℕ, betStatusOf (applyWalletLimit f (nominalResult gameId ballId idx b)) =
      if 2 ≤ basketValueAt idx then "won"
      else if basketValueAt idx = 1 then "pushed" else "lost") ∧
    basketValueAt 4 = 2 ∧
    betStatusOf (applyWalletLimit f (nominalResult gameId ballId 4 b)) = "won" ∧
    basketValueAt 3 = 1 ∧
    betStatusOf (applyWalletLimit f (nominalResult gameId ballId 3 b)) = "pushed" ∧
    basketValueAt 2 = 3/4 ∧
    betStatusOf (applyWalletLimit f (nominalResult gameId ballId 2 b)) = "lost" := by
  intro gameId ballId b f
  have hgen : ∀ idx : ℕ,
      betStatusOf (applyWalletLimit f (nominalResult gameId ballId idx b)) =
        if 2 ≤ basketValueAt idx then "won"
        else if basketValueAt idx = 1 then "pushed" else "lost" := by
    intro idx
    unfold betStatusOf
    rw [applyWalletLimit_won, applyWalletLimit_pushed,
      nominalResult_won, nominalResult_pushed]
    by_cases h2 : 2 ≤ basketValueAt idx
    · simp [h2]
    · by_cases h1 : basketValueAt idx = 1
      · simp [h2, h1]
      · simp [h2, h1]
  have h4 : basketValueAt 4 = 2 := by norm_num [basketValueAt, getAvailableBaskets]
  have h3 : basketValueAt 3 = 1 := by norm_num [basketValueAt, getAvailableBaskets]
  have hb2 : basketValueAt 2 = 3/4 := by norm_num [basketValueAt, getAvailableBaskets]
  refine ⟨hgen, h4, ?_, h3, ?_, hb2, ?_⟩
  · rw [hgen 4, h4]
    norm_num
  · rw [hgen 3, h3]
    norm_num
  · rw [hgen 2, hb2]
    norm_num

end Bucketball
